import Mathlib

/-!
Shallow embedding of the `rs-card-matching` card-matching game
(`src/game.rs`, `src/error.rs`) in Lean 4.

Machine integers (`i32`) are modelled as `Int` with explicit wrapping
(`wrap32`) at every arithmetic operation of the source, matching the
release-profile semantics of the compiled program (`overflow-checks = false`,
so `*`, `+`, `-` wrap); `as usize` casts are modelled by `i32ToUsize`.
Rust's `%` and `/` on `i32` truncate towards zero, hence `Int.tmod` and
`Int.tdiv`.  Code that can panic (slice indexing, `Option::unwrap`,
`BitVec` access, `chunks`/`try_into`) is modelled in `Option`, with `none`
standing for a panic.  The random shuffle of `Board::new` is modelled by
passing the already-shuffled coordinate list as an explicit parameter.
-/

/-- Two-complement wrap of an integer into the `i32` range, the result of a
wrapping 32-bit operation. -/
def wrap32 (v : Int) : Int :=
  (v + 2 ^ 31) % 2 ^ 32 - 2 ^ 31

/-- Rust's `as usize` cast applied to an `i32` value (sign-extension then
reinterpretation as a 64-bit unsigned integer). -/
def i32ToUsize (v : Int) : Nat :=
  (v % 2 ^ 64).toNat

/-- `src/error.rs`: the `GameError` enum. -/
inductive GameError where
  | AlreadyRevealed (x y : Int)
  | EmptyInput
  | CoordinateOverflow (axis : Char) (max : Int)
  | CoordinateUnderflow (axis : Char)
  | NotEnoughCardTypes (max : Int)
  | OddBoardCells
  | UnparsableInput
deriving DecidableEq, Repr

/-- `src/game.rs`: the `GameState` enum. -/
inductive GameState where
  | Welcome
  | SetDimensions
  | Guess
  | CorrectGuessConfirm
  | IncorrectGuessConfirm
  | Victory
  | Exit
deriving DecidableEq, Repr

/-- `src/game.rs`: `struct Card(char)`. -/
structure Card where
  sym : Char
deriving DecidableEq, Repr

/-- `src/game.rs`: `struct Vec2 { x: i32, y: i32 }`. -/
structure Vec2 where
  x : Int
  y : Int
deriving DecidableEq, Repr

/-- `src/game.rs`: `struct Idx2d { size_x: i32, size_y: i32 }`. -/
structure Idx2d where
  size_x : Int
  size_y : Int
deriving DecidableEq, Repr

/-- `Idx2d::unchecked`: `(y * self.size_x + x) as usize`, both `i32`
operations wrapping. -/
def Idx2d.unchecked (idx : Idx2d) (coords : Vec2) : Nat :=
  i32ToUsize (wrap32 (wrap32 (coords.y * idx.size_x) + coords.x))

/-- `Idx2d::of`: convert coordinates into an array index with bounds
checking. -/
def Idx2d.of (idx : Idx2d) (coords : Vec2) : Except GameError Nat :=
  if coords.x < 0 then .error (.CoordinateUnderflow 'x')
  else if coords.y < 0 then .error (.CoordinateUnderflow 'y')
  else if coords.x ≥ idx.size_x then .error (.CoordinateOverflow 'x' idx.size_x)
  else if coords.y ≥ idx.size_y then .error (.CoordinateOverflow 'y' idx.size_y)
  else .ok (idx.unchecked coords)

/-- The body of the closure in `Idx2d::iter_all`:
`x = i % size_x, y = i / size_x` (truncating `i32` division). -/
def Idx2d.unindex (idx : Idx2d) (i : Int) : Vec2 :=
  ⟨Int.tmod i idx.size_x, Int.tdiv i idx.size_x⟩

/-- `Idx2d::iter_all`: all coordinates in row-major order;
`max = size_x * size_y` is a wrapping `i32` multiplication. -/
def Idx2d.iter_all (idx : Idx2d) : List Vec2 :=
  let max := wrap32 (idx.size_x * idx.size_y)
  (List.range (max.toNat)).map fun i : Nat => idx.unindex (i : Int)

/-- `src/game.rs`: `struct Board`. -/
structure Board where
  idx : Idx2d
  cards : List Card
deriving DecidableEq, Repr

/-- `Board::CARD_CHARS`: the fixed 55-symbol alphabet. -/
def CARD_CHARS : List Char :=
  ['☀', '☁', '★', '☇', '☈', '☉', '☊', '☋', '☌', '☍', '☎', '☔', '☕', '☗',
   '☘', '☙', '☚', '☛', '☝', '☠', '☡', '☢', '☣', '☤', '☥', '☦', '☧', '☩',
   '☫', '☬', '☭', '☮', '☯', '☼', '☿', '♀', '♁', '♂', '♃', '♄', '♅', '♆',
   '♇', '♈', '♉', '♊', '♋', '♌', '♍', '♎', '♏', '♐', '♑', '♒',
   '♓']

/-- `Board::MAX_SIZE = (CARD_CHARS.len() * 2) as i32`. -/
def Board.MAX_SIZE : Int :=
  ((CARD_CHARS.length * 2 : Nat) : Int)

/-- The `Card('\0')` filler used by `vec![Card('\0'); size]`. -/
def nullCard : Card :=
  ⟨Char.ofNat 0⟩

/-- The assignment loop of `Board::new`:
`for (i, (c1, c2)) in first_half.iter().zip(second_half).enumerate()`,
writing `Board::CARD_CHARS[i]` through `board[*c1]` and `board[*c2]`.
`none` models a panic (alphabet index or board index out of bounds). -/
def writePairs (idx : Idx2d) : List (Vec2 × Vec2) → Nat → List Card → Option (List Card)
  | [], _, cards => some cards
  | (c1, c2) :: rest, i, cards =>
    match CARD_CHARS.get? i with
    | none => none
    | some ch =>
      let j1 := idx.unchecked c1
      if j1 < cards.length then
        let cards1 := cards.set j1 ⟨ch⟩
        let j2 := idx.unchecked c2
        if j2 < cards1.length then
          writePairs idx rest (i + 1) (cards1.set j2 ⟨ch⟩)
        else none
      else none

/-- `Board::new(size_x, size_y)`.  The `shuffled` parameter stands for the
result of `coords.shuffle(&mut rng)`, i.e. an arbitrary permutation of
`Idx2d::iter_all` chosen by the random source.  `chunks(chunk_size)` with
`chunk_size = len / 2` panics when `chunk_size = 0`, and the
`try_into::<[_; 2]>().unwrap()` panics when the list length is odd (three
chunks); both are modelled as `none`. -/
def Board.new (size_x size_y : Int) (shuffled : List Vec2) : Option Board :=
  let size := i32ToUsize (wrap32 (size_x * size_y))
  let idx : Idx2d := ⟨size_x, size_y⟩
  let cards0 : List Card := List.replicate size nullCard
  let chunk_size := shuffled.length / 2
  if chunk_size = 0 then none
  else if shuffled.length ≠ 2 * chunk_size then none
  else
    let first_half := shuffled.take chunk_size
    let second_half := shuffled.drop chunk_size
    (writePairs idx (first_half.zip second_half) 0 cards0).map fun cards =>
      ⟨idx, cards⟩

/-- `Board::default()`: the empty 0×0 board. -/
def Board.default : Board :=
  ⟨⟨0, 0⟩, []⟩

/-- The character predicate of `parse_pair`'s split: `c == ',' || c == ';'`. -/
def isSep (c : Char) : Bool :=
  c = ',' || c = ';'

/-- Rust `str::split` on a character predicate, over the character list:
adjacent separators yield empty parts, and the empty input yields `[[]]`. -/
def splitList (p : Char → Bool) : List Char → List (List Char)
  | [] => [[]]
  | c :: rest =>
    if p c then [] :: splitList p rest
    else
      match splitList p rest with
      | part :: parts => (c :: part) :: parts
      | [] => [[c]]

/-- Rust `str::trim` over the character list. -/
def trimList (l : List Char) : List Char :=
  ((l.dropWhile Char.isWhitespace).reverse.dropWhile Char.isWhitespace).reverse

/-- Value of an ASCII digit string. -/
def digitsToNat (l : List Char) : Nat :=
  l.foldl (fun acc c => acc * 10 + (c.toNat - 48)) 0

/-- Rust `str::parse::<i32>()`: an optional sign, then at least one ASCII
digit and nothing else, and the value must fit in `i32` (otherwise the parse
reports an overflow error, observably the same failure). -/
def parseI32 (l : List Char) : Option Int :=
  let signed : Int × List Char :=
    match l with
    | '+' :: rest => (1, rest)
    | '-' :: rest => (-1, rest)
    | _ => (1, l)
  let sign := signed.1
  let digits := signed.2
  if digits ≠ [] ∧ digits.all Char.isDigit then
    let v : Int := sign * (digitsToNat digits : Int)
    if -2 ^ 31 ≤ v ∧ v ≤ 2 ^ 31 - 1 then some v else none
  else none

/-- `Game::parse_pair`: note the emptiness test is on the raw input string,
before any trimming; only the split parts are trimmed. -/
def parse_pair (s : String) : Except GameError Vec2 :=
  if s.data = [] then .error .EmptyInput
  else
    let parts := (splitList isSep s.data).map trimList
    if parts.length < 2 then .error .UnparsableInput
    else
      match parseI32 (parts.getD 0 []) with
      | none => .error .UnparsableInput
      | some x =>
        match parseI32 (parts.getD 1 []) with
        | none => .error .UnparsableInput
        | some y => .ok ⟨x, y⟩

/-- `Game::parse_dimensions`: the products `p.x * p.y` are wrapping `i32`
multiplications, and `% 2` is the truncating `i32` remainder. -/
def parse_dimensions (s : String) : Except GameError Vec2 :=
  match parse_pair s with
  | .error e => .error e
  | .ok p =>
  if p.x ≤ 0 then .error (.CoordinateUnderflow 'x')
  else if p.y ≤ 0 then .error (.CoordinateUnderflow 'y')
  else if wrap32 (p.x * p.y) > Board.MAX_SIZE then
    .error (.NotEnoughCardTypes Board.MAX_SIZE)
  else if Int.tmod (wrap32 (p.x * p.y)) 2 ≠ 0 then .error .OddBoardCells
  else .ok p

/-- `Game::parse_coords`: subtract 1 from each component (wrapping `i32`
subtraction) and bounds-check against the indexer. -/
def parse_coords (idx : Idx2d) (s : String) : Except GameError Vec2 :=
  match parse_pair s with
  | .error e => .error e
  | .ok p =>
    let coords : Vec2 := ⟨wrap32 (p.x - 1), wrap32 (p.y - 1)⟩
    match idx.of coords with
    | .error e => .error e
    | .ok _ => .ok coords

/-- `Game::parse_yn`: `s.to_lowercase().trim()` then match on
`"y"` / `"n"` / empty. -/
def parse_yn (s : String) : Except GameError Bool :=
  let t := trimList (s.data.map Char.toLower)
  if t = ['y'] then .ok true
  else if t = ['n'] then .ok false
  else if t = [] then .ok false
  else .error .UnparsableInput

/-- `src/game.rs`: `struct Game`.  The `BitVec` of discovered flags is a
`List Bool`. -/
structure Game where
  state : GameState
  user_input : String
  guesses : Int
  idx : Idx2d
  board : Board
  discovered : List Bool
  revealed1 : Option Vec2
  revealed2 : Option Vec2
  error : Option GameError
deriving DecidableEq, Repr

/-- `Game::new()`. -/
def Game.new : Game :=
  ⟨.Welcome, "", 0, ⟨0, 0⟩, Board.default, [], none, none, none⟩

/-- `Game::is_running()`. -/
def Game.is_running (g : Game) : Bool :=
  g.state ≠ GameState.Exit

/-- `Game::set_discovered`: `self.discovered.set(index, true)`; the `BitVec`
panics when the index is out of range (`none`). -/
def Game.set_discovered (g : Game) (c : Vec2) : Option Game :=
  let index := g.idx.unchecked c
  if index < g.discovered.length then
    some { g with discovered := g.discovered.set index true }
  else none

/-- `Game::is_discovered`: `*self.discovered.get(index).unwrap()`; the
`unwrap` panics when the index is out of range (`none`). -/
def Game.is_discovered (g : Game) (c : Vec2) : Option Bool :=
  g.discovered.get? (g.idx.unchecked c)

/-- `Game::all_discovered`: `count_ones() == len()`. -/
def Game.all_discovered (g : Game) : Bool :=
  g.discovered.count true = g.discovered.length

/-- `Game::can_reveal`. -/
def Game.can_reveal (g : Game) : Bool :=
  g.revealed1.isNone || g.revealed2.isNone

/-- `Game::revealed_match`: compares `self.board[r1]` with `self.board[r2]`
(through the board's own indexer); `unwrap` on an empty slot and
out-of-range card indexing panic (`none`). -/
def Game.revealed_match (g : Game) : Option Bool :=
  match g.revealed1, g.revealed2 with
  | some r1, some r2 =>
    match g.board.cards.get? (g.board.idx.unchecked r1),
          g.board.cards.get? (g.board.idx.unchecked r2) with
    | some k1, some k2 => some (decide (k1 = k2))
    | _, _ => none
  | _, _ => none

/-- `Game::set_revealed`. -/
def Game.set_revealed (g : Game) (c : Vec2) : Game :=
  if g.revealed1.isNone then { g with revealed1 := some c }
  else { g with revealed2 := some c }

/-- `Game::clear_revealed`. -/
def Game.clear_revealed (g : Game) : Game :=
  { g with revealed1 := none, revealed2 := none }

/-- `Game::is_revealed`. -/
def Game.is_revealed (g : Game) (c : Vec2) : Bool :=
  decide (g.revealed1 = some c) || decide (g.revealed2 = some c)

/-- `Game::inc_guesses`: a wrapping `i32` increment. -/
def Game.inc_guesses (g : Game) : Game :=
  { g with guesses := wrap32 (g.guesses + 1) }

/-- `Game::set_dimensions`: parse the latest input as dimensions, then
rebuild the indexer, the discovered bitmap (`bitvec![0; (x * y) as usize]`,
a wrapping product) and the board.  `shuffled` is the permutation the random
shuffle inside `Board::new` produces. -/
def Game.set_dimensions (g : Game) (shuffled : List Vec2) :
    Option (Except GameError Game) :=
  match parse_dimensions g.user_input with
  | .error e => some (.error e)
  | .ok p =>
    let g1 := { g with
      idx := ⟨p.x, p.y⟩
      discovered := List.replicate (i32ToUsize (wrap32 (p.x * p.y))) false }
    match Board.new p.x p.y shuffled with
    | none => none
    | some b => some (.ok { g1 with board := b })

/-- `Game::update`: one step of the state machine, driven by the stored
`user_input`.  `none` models a panic inside the step; `shuffled` is the
permutation used if a board is (re)built during the step. -/
def Game.update (shuffled : List Vec2) (g0 : Game) : Option Game :=
  let g := { g0 with error := none }
  match g.state with
  | .Welcome => some { g with state := .SetDimensions }
  | .SetDimensions =>
    match g.set_dimensions shuffled with
    | none => none
    | some (.ok g1) => some { g1 with state := .Guess }
    | some (.error e) => some { g with error := some e }
  | .Guess =>
    match parse_coords g.idx g.user_input with
    | .error e => some { g with error := some e }
    | .ok c =>
      if g.is_revealed c then
        some { g with
          error := some (.AlreadyRevealed (wrap32 (c.x + 1)) (wrap32 (c.y + 1))) }
      else
        match g.is_discovered c with
        | none => none
        | some true =>
          some { g with
            error := some (.AlreadyRevealed (wrap32 (c.x + 1)) (wrap32 (c.y + 1))) }
        | some false =>
          let g1 := if g.can_reveal then g.set_revealed c else g
          if !g1.can_reveal then
            match g1.revealed_match with
            | none => none
            | some true => some { g1 with state := .CorrectGuessConfirm }
            | some false => some { g1 with state := .IncorrectGuessConfirm }
          else some g1
  | .CorrectGuessConfirm =>
    match g.revealed1 with
    | none => none
    | some r1 =>
      match g.set_discovered r1 with
      | none => none
      | some ga =>
        match ga.revealed2 with
        | none => none
        | some r2 =>
          match ga.set_discovered r2 with
          | none => none
          | some gb =>
            let gc := gb.inc_guesses.clear_revealed
            if gc.all_discovered then some { gc with state := .Victory }
            else some { gc with state := .Guess }
  | .IncorrectGuessConfirm =>
    some { g.inc_guesses.clear_revealed with state := .Guess }
  | .Victory =>
    match parse_yn g.user_input with
    | .ok true => some { g with state := .SetDimensions }
    | .ok false => some { g with state := .Exit }
    | .error e => some { g with error := some e }
  | .Exit => some g

deriving instance DecidableEq for Except

theorem wrap32_eq_self {v : Int} (h1 : -2 ^ 31 ≤ v) (h2 : v < 2 ^ 31) :
    wrap32 v = v := by
  unfold wrap32
  rw [Int.emod_eq_of_lt (by omega) (by omega)]
  omega

theorem i32ToUsize_eq_toNat {v : Int} (h1 : 0 ≤ v) (h2 : v < 2 ^ 64) :
    i32ToUsize v = v.toNat := by
  unfold i32ToUsize
  rw [Int.emod_eq_of_lt h1 h2]

theorem unchecked_eq_of_lt {w h x y : Int} (hx : 0 ≤ x) (hxw : x < w) (hy : 0 ≤ y)
    (hyh : y < h) (harea : w * h < 2 ^ 31) :
    Idx2d.unchecked ⟨w, h⟩ ⟨x, y⟩ = (y * w + x).toNat := by
  have hw : 0 < w := lt_of_le_of_lt hx hxw
  have hyw : (y + 1) * w ≤ h * w :=
    mul_le_mul_of_nonneg_right (by omega) (le_of_lt hw)
  have hlt : y * w + x < w * h := by nlinarith
  have h0 : 0 ≤ y * w := mul_nonneg hy (le_of_lt hw)
  simp only [Idx2d.unchecked]
  have hin : wrap32 (y * w) = y * w := wrap32_eq_self (by omega) (by omega)
  rw [hin, wrap32_eq_self (by omega) (by omega),
      i32ToUsize_eq_toNat (by omega) (by omega)]

/-- C8 (confirmed): for all in-bounds coordinates `(x, y)` of a board whose
cell count fits in `i32` (every valid board has at most 110 cells), mapping
through `Idx2d::unchecked` (`linear = y*width + x`) and back through the
inverse mapping of `Idx2d::iter_all` (`x = i % width, y = i / width`)
returns the original pair. -/
theorem Idx2d.round_trip (w h x y : Int) (hx : 0 ≤ x) (hxw : x < w) (hy : 0 ≤ y)
    (hyh : y < h) (harea : w * h < 2 ^ 31) :
    Idx2d.unindex ⟨w, h⟩ ((Idx2d.unchecked ⟨w, h⟩ ⟨x, y⟩ : Nat) : Int) = ⟨x, y⟩ := by
  rw [unchecked_eq_of_lt hx hxw hy hyh harea]
  have hw : 0 < w := lt_of_le_of_lt hx hxw
  have h0 : 0 ≤ y * w + x := by positivity
  rw [Int.toNat_of_nonneg h0]
  simp only [Idx2d.unindex]
  have hmod : Int.tmod (y * w + x) w = x := by
    rw [Int.tmod_eq_emod h0 (le_of_lt hw),
        show y * w + x = x + y * w by ring, Int.add_mul_emod_self]
    exact Int.emod_eq_of_lt hx hxw
  have hdiv : Int.tdiv (y * w + x) w = y := by
    rw [Int.tdiv_eq_ediv h0 (le_of_lt hw),
        show y * w + x = x + y * w by ring,
        Int.add_mul_ediv_right _ _ (ne_of_gt hw),
        Int.ediv_eq_zero_of_lt hx hxw]
    ring
  rw [hmod, hdiv]

/-- Witness for `Idx2d.round_trip` on a 4×4 board at `(2, 3)`. -/
theorem Idx2d.round_trip_witness :
    Idx2d.unindex ⟨4, 4⟩ ((Idx2d.unchecked ⟨4, 4⟩ ⟨2, 3⟩ : Nat) : Int) = ⟨2, 3⟩ :=
  Idx2d.round_trip 4 4 2 3 (by decide) (by decide) (by decide) (by decide)
    (by decide)

/-- C10 (code_bug): the dimension parser accepts `"6,715827883"` although
the mathematical product `6 × 715827883 = 4294967298` exceeds 110: the
release-mode `i32` product wraps to `2`, which passes both the
`NotEnoughCardTypes` and the parity check. -/
theorem parse_dimensions_accepts_product_overflow :
    parse_dimensions "6,715827883" = .ok ⟨6, 715827883⟩ ∧
      ¬((6 : Int) * 715827883 ≤ 110) ∧
      wrap32 ((6 : Int) * 715827883) = 2 := by
  refine ⟨by decide, by decide, by decide⟩

/-- C4 counterexample: `"6,715827883"` has a mathematical product larger
than `2 ×` the alphabet size, yet the parser does not reject it with
`NotEnoughCardTypes` (it accepts the pair, the wrapping `i32` product
being `2`). -/
theorem parse_dimensions_overflow_counterexample :
    (6 : Int) * 715827883 > 2 * (CARD_CHARS.length : Int) ∧
      parse_dimensions "6,715827883" ≠ .error (.NotEnoughCardTypes 110) := by
  refine ⟨by decide, by decide⟩

/-- C4 (amended): `"4,4"` is accepted, `"3,3"` is rejected as
`OddBoardCells`, `"1,0"` as `CoordinateUnderflow` on axis `y`; every pair
of positive components whose wrapping 32-bit product exceeds 110 is
rejected as `NotEnoughCardTypes 110`; accepted values are exactly the pair
returned by the pair parser, used directly. -/
theorem parse_dimensions_spec :
    parse_dimensions "4,4" = .ok ⟨4, 4⟩ ∧
    parse_dimensions "3,3" = .error .OddBoardCells ∧
    parse_dimensions "1,0" = .error (.CoordinateUnderflow 'y') ∧
    (∀ s p, parse_pair s = .ok p → 0 < p.x → 0 < p.y →
      wrap32 (p.x * p.y) > 110 →
      parse_dimensions s = .error (.NotEnoughCardTypes 110)) ∧
    (∀ s p, parse_dimensions s = .ok p → parse_pair s = .ok p) := by
  refine ⟨by decide, by decide, by decide, ?_, ?_⟩
  · intro s p hp hx hy hprod
    have hms : Board.MAX_SIZE = 110 := by decide
    simp only [parse_dimensions, hp, hms]
    rw [if_neg (by omega), if_neg (by omega), if_pos (by omega)]
  · intro s p h
    cases hp : parse_pair s with
    | error e => simp [parse_dimensions, hp] at h
    | ok q =>
      simp only [parse_dimensions, hp] at h
      split_ifs at h
      all_goals simp_all

/-- Witness for `parse_dimensions_spec` on `"111,2"` (too many cells) and
`"4,4"` (accepted pair comes from the pair parser). -/
theorem parse_dimensions_spec_witness :
    parse_dimensions "111,2" = .error (.NotEnoughCardTypes 110) ∧
      parse_pair "4,4" = .ok ⟨4, 4⟩ :=
  ⟨parse_dimensions_spec.2.2.2.1 "111,2" ⟨111, 2⟩ (by decide) (by decide)
      (by decide) (by decide),
    parse_dimensions_spec.2.2.2.2 "4,4" ⟨4, 4⟩ (by decide)⟩

/-- C3 counterexample: the whitespace-only line `" "` trims to the empty
string, yet `parse_pair` returns `UnparsableInput`, not the dedicated
`EmptyInput` error the claim requires for it. -/
theorem parse_pair_whitespace_counterexample :
    trimList " ".data = [] ∧ parse_pair " " ≠ .error .EmptyInput ∧
      parse_pair " " = .error .UnparsableInput := by
  refine ⟨by decide, by decide, by decide⟩

/-- C3 (amended): `parse_pair` returns the dedicated `EmptyInput` error
exactly when the raw input line is the empty string (no trimming is applied
to this test); any nonempty line — including whitespace-only ones — with
fewer than two comma/semicolon-separated parts, or whose first two trimmed
parts are not integers, returns the generic `UnparsableInput` error. -/
theorem parse_pair_error_classification :
    (∀ s : String, parse_pair s = .error .EmptyInput ↔ s.data = []) ∧
    (∀ s : String, s.data ≠ [] →
      (((splitList isSep s.data).map trimList).length < 2 ∨
        parseI32 (((splitList isSep s.data).map trimList).getD 0 []) = none ∨
        parseI32 (((splitList isSep s.data).map trimList).getD 1 []) = none) →
      parse_pair s = .error .UnparsableInput) := by
  constructor
  · intro s
    constructor
    · intro h
      by_contra hne
      simp only [parse_pair, if_neg hne] at h
      by_cases hlen : ((splitList isSep s.data).map trimList).length < 2
      · rw [if_pos hlen] at h
        cases h
      · rw [if_neg hlen] at h
        cases h1 : parseI32 (((splitList isSep s.data).map trimList).getD 0 []) <;>
          rw [h1] at h
        · cases h
        · cases h2 : parseI32 (((splitList isSep s.data).map trimList).getD 1 []) <;>
            rw [h2] at h
          · cases h
          · cases h
    · intro h
      simp [parse_pair, h]
  · intro s hne hcond
    simp only [parse_pair, if_neg hne]
    rcases hcond with h | h | h
    · rw [if_pos h]
    · by_cases hlen : ((splitList isSep s.data).map trimList).length < 2
      · rw [if_pos hlen]
      · rw [if_neg hlen, h]
    · by_cases hlen : ((splitList isSep s.data).map trimList).length < 2
      · rw [if_pos hlen]
      · rw [if_neg hlen]
        cases h1 : parseI32 (((splitList isSep s.data).map trimList).getD 0 [])
        · rfl
        · rw [h]

/-- Witness for `parse_pair_error_classification` on the empty line and the
one-part line `"1"`. -/
theorem parse_pair_error_classification_witness :
    parse_pair "" = .error .EmptyInput ∧
      parse_pair "1" = .error .UnparsableInput :=
  ⟨(parse_pair_error_classification.1 "").mpr (by decide),
    parse_pair_error_classification.2 "1" (by decide) (Or.inl (by decide))⟩

/-- C5 (confirmed): the coordinate parser subtracts 1 from each parsed
component (a wrapping `i32` subtraction) and bounds-checks the result
through `Idx2d::of`; on a 4×4 board `"1,1"` maps to internal `(0,0)`,
`"5,1"` fails with `CoordinateOverflow` on axis `x` with maximum 4, and
`"0,1"` fails with `CoordinateUnderflow` on axis `x`. -/
theorem parse_coords_spec :
    (∀ (idx : Idx2d) (s : String) (p : Vec2), parse_pair s = .ok p →
      ((∃ j, idx.of ⟨wrap32 (p.x - 1), wrap32 (p.y - 1)⟩ = .ok j ∧
          parse_coords idx s = .ok ⟨wrap32 (p.x - 1), wrap32 (p.y - 1)⟩) ∨
        (∃ e, idx.of ⟨wrap32 (p.x - 1), wrap32 (p.y - 1)⟩ = .error e ∧
          parse_coords idx s = .error e))) ∧
    parse_coords ⟨4, 4⟩ "1,1" = .ok ⟨0, 0⟩ ∧
    parse_coords ⟨4, 4⟩ "5,1" = .error (.CoordinateOverflow 'x' 4) ∧
    parse_coords ⟨4, 4⟩ "0,1" = .error (.CoordinateUnderflow 'x') := by
  refine ⟨?_, by decide, by decide, by decide⟩
  intro idx s p hp
  simp only [parse_coords, hp]
  cases hof : idx.of ⟨wrap32 (p.x - 1), wrap32 (p.y - 1)⟩ with
  | error e => exact Or.inr ⟨e, rfl, rfl⟩
  | ok j => exact Or.inl ⟨j, rfl, rfl⟩

/-- Witness for `parse_coords_spec`: the general branch applied on a 4×4
board to the line `"2,3"`. -/
theorem parse_coords_spec_witness :
    (∃ j, (Idx2d.mk 4 4).of ⟨wrap32 (2 - 1), wrap32 (3 - 1)⟩ = .ok j ∧
        parse_coords ⟨4, 4⟩ "2,3" = .ok ⟨wrap32 (2 - 1), wrap32 (3 - 1)⟩) ∨
      (∃ e, (Idx2d.mk 4 4).of ⟨wrap32 (2 - 1), wrap32 (3 - 1)⟩ = .error e ∧
        parse_coords ⟨4, 4⟩ "2,3" = .error e) :=
  parse_coords_spec.1 ⟨4, 4⟩ "2,3" ⟨2, 3⟩ (by decide)

theorem of_ok_bounds {idx : Idx2d} {c : Vec2} {j : Nat} (h : idx.of c = .ok j) :
    0 ≤ c.x ∧ c.x < idx.size_x ∧ 0 ≤ c.y ∧ c.y < idx.size_y := by
  unfold Idx2d.of at h
  split_ifs at h with h1 h2 h3 h4
  exact ⟨by omega, by omega, by omega, by omega⟩

theorem parse_coords_ok_of {idx : Idx2d} {s : String} {c : Vec2}
    (h : parse_coords idx s = .ok c) : ∃ j, idx.of c = .ok j := by
  unfold parse_coords at h
  cases hp : parse_pair s with
  | error e => rw [hp] at h; cases h
  | ok p =>
    rw [hp] at h
    simp only at h
    cases hof : idx.of ⟨wrap32 (p.x - 1), wrap32 (p.y - 1)⟩ with
    | error e => rw [hof] at h; cases h
    | ok j =>
      rw [hof] at h
      cases h
      exact ⟨j, hof⟩

/-- C6 (confirmed): in state `Guess`, a successfully parsed, range-valid
coordinate that already occupies a revealed slot or is already discovered
makes `update` record `AlreadyRevealed` with the 1-indexed coordinates and
leave the state, the revealed slots, the discovered set and the guess count
unchanged. -/
theorem Game.update_already_revealed (shuffled : List Vec2) (g : Game) (c : Vec2)
    (hstate : g.state = .Guess)
    (hparse : parse_coords g.idx g.user_input = .ok c)
    (hsx : g.idx.size_x < 2 ^ 31) (hsy : g.idx.size_y < 2 ^ 31)
    (halready : g.is_revealed c = true ∨ g.is_discovered c = some true) :
    g.update shuffled =
      some { g with error := some (.AlreadyRevealed (c.x + 1) (c.y + 1)) } := by
  obtain ⟨j, hof⟩ := parse_coords_ok_of hparse
  obtain ⟨hx0, hxw, hy0, hyh⟩ := of_ok_bounds hof
  have hwx : wrap32 (c.x + 1) = c.x + 1 := wrap32_eq_self (by omega) (by omega)
  have hwy : wrap32 (c.y + 1) = c.y + 1 := wrap32_eq_self (by omega) (by omega)
  obtain ⟨st, ui, gu, idx, bd, dv, r1, r2, er⟩ := g
  subst hstate
  simp only [Game.update, hparse, Game.is_revealed, Game.is_discovered] at halready ⊢
  rw [hwx, hwy]
  rcases halready with hrev | hdisc
  · rw [if_pos hrev]
  · by_cases hrev : (decide (r1 = some c) || decide (r2 = some c)) = true
    · rw [if_pos hrev]
    · rw [if_neg hrev, hdisc]

/-- Witness for `Game.update_already_revealed`: re-picking the already
revealed cell `(1,1)` on a 2×1 board. -/
theorem Game.update_already_revealed_witness :
    Game.update []
        ⟨.Guess, "1,1", 0, ⟨2, 1⟩, ⟨⟨2, 1⟩, [⟨'☀'⟩, ⟨'☀'⟩]⟩, [false, false],
          some ⟨0, 0⟩, none, none⟩ =
      some ⟨.Guess, "1,1", 0, ⟨2, 1⟩, ⟨⟨2, 1⟩, [⟨'☀'⟩, ⟨'☀'⟩]⟩, [false, false],
        some ⟨0, 0⟩, none, some (.AlreadyRevealed (0 + 1) (0 + 1))⟩ :=
  Game.update_already_revealed [] _ ⟨0, 0⟩ rfl (by decide) (by decide) (by decide)
    (Or.inl (by decide))

/-- C7 (confirmed): an update step never depends on the previously recorded
error (it is cleared first), and whenever the step records a fresh error the
state and all other engine data (guess count, indexer, board, discovered
set, revealed slots) are left unchanged. -/
theorem Game.update_error_discipline :
    (∀ (shuffled : List Vec2) (g : Game) (e : Option GameError),
      Game.update shuffled { g with error := e } = Game.update shuffled g) ∧
    (∀ (shuffled : List Vec2) (g g' : Game),
      Game.update shuffled g = some g' → g'.error ≠ none →
      g'.state = g.state ∧ g'.guesses = g.guesses ∧ g'.idx = g.idx ∧
        g'.board = g.board ∧ g'.discovered = g.discovered ∧
        g'.revealed1 = g.revealed1 ∧ g'.revealed2 = g.revealed2) := by
  constructor
  · intro shuffled g e
    cases g
    rfl
  · intro shuffled g g' h herr
    obtain ⟨st, ui, gu, idx, bd, dv, r1, r2, er⟩ := g
    cases st
    case SetDimensions =>
      simp only [Game.update] at h
      cases hsd : Game.set_dimensions
          ⟨GameState.SetDimensions, ui, gu, idx, bd, dv, r1, r2, none⟩ shuffled with
      | none => rw [hsd] at h; cases h
      | some r =>
        rw [hsd] at h
        cases r with
        | ok g1 =>
          cases h
          have hg1 : g1.error = none := by
            simp only [Game.set_dimensions] at hsd
            cases hp : parse_dimensions ui with
            | error e => rw [hp] at hsd; cases hsd
            | ok p =>
              rw [hp] at hsd
              simp only at hsd
              cases hb : Board.new p.x p.y shuffled with
              | none => rw [hb] at hsd; cases hsd
              | some b =>
                rw [hb] at hsd
                cases hsd
                rfl
          simp_all
        | error e =>
          cases h
          exact ⟨rfl, rfl, rfl, rfl, rfl, rfl, rfl⟩
    case CorrectGuessConfirm =>
      simp only [Game.update] at h
      cases r1 with
      | none => cases h
      | some v1 =>
        simp only at h
        cases hs1 : Game.set_discovered
            ⟨GameState.CorrectGuessConfirm, ui, gu, idx, bd, dv, some v1, r2, none⟩ v1 with
        | none => rw [hs1] at h; cases h
        | some ga =>
          rw [hs1] at h
          simp only at h
          have hga : ga.error = none := by
            simp only [Game.set_discovered] at hs1
            split_ifs at hs1
            cases hs1
            rfl
          cases hr2 : ga.revealed2 with
          | none => rw [hr2] at h; cases h
          | some v2 =>
            rw [hr2] at h
            simp only at h
            cases hs2 : ga.set_discovered v2 with
            | none => rw [hs2] at h; cases h
            | some gb =>
              rw [hs2] at h
              simp only at h
              have hgb : gb.error = none := by
                simp only [Game.set_discovered] at hs2
                split_ifs at hs2
                cases hs2
                simpa using hga
              split at h
              · cases h
                simp_all [Game.inc_guesses, Game.clear_revealed]
              · cases h
                simp_all [Game.inc_guesses, Game.clear_revealed]
    all_goals simp only [Game.update] at h
    all_goals repeat' split at h
    all_goals try cases h
    all_goals simp_all [Game.set_revealed, Game.inc_guesses, Game.clear_revealed,
      apply_ite Game.error]

/-- A game awaiting dimensions with an unparsable pending input line. -/
def sampleBadDims : Game :=
  ⟨.SetDimensions, "x", 0, ⟨0, 0⟩, Board.default, [], none, none, none⟩

/-- Witness for `Game.update_error_discipline`: a stale error does not
influence the step, and a failing dimension parse changes nothing but the
error slot. -/
theorem Game.update_error_discipline_witness :
    (Game.update [] { sampleBadDims with error := some GameError.EmptyInput } =
        Game.update [] sampleBadDims) ∧
      ({ sampleBadDims with error := some GameError.UnparsableInput }.state =
          sampleBadDims.state ∧
        { sampleBadDims with error := some GameError.UnparsableInput }.guesses =
          sampleBadDims.guesses ∧
        { sampleBadDims with error := some GameError.UnparsableInput }.idx =
          sampleBadDims.idx ∧
        { sampleBadDims with error := some GameError.UnparsableInput }.board =
          sampleBadDims.board ∧
        { sampleBadDims with error := some GameError.UnparsableInput }.discovered =
          sampleBadDims.discovered ∧
        { sampleBadDims with error := some GameError.UnparsableInput }.revealed1 =
          sampleBadDims.revealed1 ∧
        { sampleBadDims with error := some GameError.UnparsableInput }.revealed2 =
          sampleBadDims.revealed2) :=
  ⟨Game.update_error_discipline.1 [] sampleBadDims (some GameError.EmptyInput),
    Game.update_error_discipline.2 [] sampleBadDims
      { sampleBadDims with error := some GameError.UnparsableInput }
      (by decide) (by decide)⟩

/-- C9 (code_bug): the update step can panic on crafted user input.  The
dimension line `"6,715827883"` is accepted because the `i32` product wraps
to 2 (release semantics), leaving a 2-bit discovered bitmap with a
6×715827883 indexer; the identity shuffle `[(0,0), (1,0)]` is exactly
`iter_all` for those sizes, so it is a possible shuffle result.  The
range-valid guess `"3,1"` then evaluates
`discovered.get(2).unwrap()` on the length-2 bitmap — a panic, `none` in
this embedding. -/
theorem Game.update_panics_after_overflow_dims :
    (Idx2d.mk 6 715827883).iter_all = [⟨0, 0⟩, ⟨1, 0⟩] ∧
    ∃ g2 : Game,
      Game.update [⟨0, 0⟩, ⟨1, 0⟩]
          { Game.new with state := .SetDimensions, user_input := "6,715827883" } =
        some g2 ∧
      g2.state = .Guess ∧ g2.error = none ∧
      parse_coords g2.idx "3,1" = .ok ⟨2, 0⟩ ∧
      Game.update [⟨0, 0⟩, ⟨1, 0⟩] { g2 with user_input := "3,1" } = none := by
  refine ⟨by decide,
    ⟨.Guess, "6,715827883", 0, ⟨6, 715827883⟩,
      ⟨⟨6, 715827883⟩, [⟨'☀'⟩, ⟨'☀'⟩]⟩, [false, false], none, none, none⟩,
    by decide, by decide, by decide, by decide, by decide⟩

theorem getD_set_true (l : List Bool) (i j : Nat) (hj : j < l.length) :
    ((l.set i true).getD j false = true ↔ (l.getD j false = true ∨ j = i)) := by
  rw [List.getD_eq_getElem?_getD, List.getElem?_set]
  by_cases hij : i = j
  · subst hij
    rw [if_pos rfl, if_pos hj]
    simp
  · rw [if_neg hij, List.getD_eq_getElem?_getD]
    simp [Ne.symm hij]

/-- C2 (confirmed): in state `Guess`, the pick that fills the second slot
transitions to `CorrectGuessConfirm` when the two revealed cards are equal
and to `IncorrectGuessConfirm` otherwise; the auto-advance from
`CorrectGuessConfirm` marks exactly the two revealed cells discovered,
increments the guess count by 1, clears both slots, and lands in `Victory`
exactly when every cell is discovered, else `Guess`; the auto-advance from
`IncorrectGuessConfirm` increments the guess count by 1, clears both slots,
leaves every discovered bit unchanged, and returns to `Guess`. -/
theorem Game.update_guess_resolution :
    (∀ (sh : List Vec2) (g : Game) (c r1 : Vec2) (k1 kc : Card),
      g.state = .Guess → g.revealed1 = some r1 → g.revealed2 = none →
      parse_coords g.idx g.user_input = .ok c →
      g.is_revealed c = false → g.is_discovered c = some false →
      g.board.cards.get? (g.board.idx.unchecked r1) = some k1 →
      g.board.cards.get? (g.board.idx.unchecked c) = some kc →
      g.update sh = some { g with
        revealed2 := some c
        error := none
        state := (if k1 = kc then GameState.CorrectGuessConfirm
          else GameState.IncorrectGuessConfirm) }) ∧
    (∀ (sh : List Vec2) (g : Game) (r1 r2 : Vec2),
      g.state = .CorrectGuessConfirm →
      g.revealed1 = some r1 → g.revealed2 = some r2 →
      g.idx.unchecked r1 < g.discovered.length →
      g.idx.unchecked r2 < g.discovered.length →
      -2 ^ 31 ≤ g.guesses → g.guesses < 2 ^ 31 - 1 →
      (g.update sh = some { g with
          discovered := ((g.discovered.set (g.idx.unchecked r1) true).set
            (g.idx.unchecked r2) true)
          guesses := g.guesses + 1
          revealed1 := none
          revealed2 := none
          error := none
          state :=
            (if ((g.discovered.set (g.idx.unchecked r1) true).set
                  (g.idx.unchecked r2) true).count true = g.discovered.length then
              GameState.Victory
            else GameState.Guess) }) ∧
        (∀ j, j < g.discovered.length →
          (((g.discovered.set (g.idx.unchecked r1) true).set
              (g.idx.unchecked r2) true).getD j false = true ↔
            (g.discovered.getD j false = true ∨ j = g.idx.unchecked r1 ∨
              j = g.idx.unchecked r2))) ∧
        ((if ((g.discovered.set (g.idx.unchecked r1) true).set
              (g.idx.unchecked r2) true).count true = g.discovered.length then
            GameState.Victory else GameState.Guess) = GameState.Victory ↔
          ∀ b ∈ (g.discovered.set (g.idx.unchecked r1) true).set
              (g.idx.unchecked r2) true, b = true)) ∧
    (∀ (sh : List Vec2) (g : Game),
      g.state = .IncorrectGuessConfirm →
      -2 ^ 31 ≤ g.guesses → g.guesses < 2 ^ 31 - 1 →
      g.update sh = some { g with
        guesses := g.guesses + 1
        revealed1 := none
        revealed2 := none
        error := none
        state := GameState.Guess }) := by
  refine ⟨?_, ?_, ?_⟩
  · intro sh g c r1 k1 kc hstate hr1 hr2 hparse hrev hdisc hk1 hkc
    obtain ⟨st, ui, gu, idx, bd, dv, rv1, rv2, er⟩ := g
    subst hstate hr1 hr2
    simp only [List.get?_eq_getElem?] at hk1 hkc
    simp only at hparse
    simp [Game.is_revealed] at hrev
    simp only [Game.is_discovered, List.get?_eq_getElem?] at hdisc
    by_cases hk : k1 = kc
    · simp [Game.update, hparse, Game.is_revealed, hrev, Game.is_discovered,
        hdisc, Game.can_reveal, Game.set_revealed, Game.revealed_match,
        List.get?_eq_getElem?, hk1, hkc, hk]
    · simp [Game.update, hparse, Game.is_revealed, hrev, Game.is_discovered,
        hdisc, Game.can_reveal, Game.set_revealed, Game.revealed_match,
        List.get?_eq_getElem?, hk1, hkc, hk]
  · intro sh g r1 r2 hstate hr1 hr2 hi1 hi2 hg1 hg2
    obtain ⟨st, ui, gu, idx, bd, dv, rv1, rv2, er⟩ := g
    subst hstate hr1 hr2
    simp only at hi1 hi2 hg1 hg2
    have hw : wrap32 (gu + 1) = gu + 1 :=
      wrap32_eq_self (by omega) (by omega)
    refine ⟨?_, ?_, ?_⟩
    · by_cases hall :
        ((dv.set (Idx2d.unchecked idx r1) true).set
          (Idx2d.unchecked idx r2) true).count true = dv.length
      · simp [Game.update, Game.set_discovered, hi1, hi2, Game.inc_guesses,
          Game.clear_revealed, Game.all_discovered, hall, hw]
      · simp [Game.update, Game.set_discovered, hi1, hi2, Game.inc_guesses,
          Game.clear_revealed, Game.all_discovered, hall, hw]
    · intro j hj
      rw [getD_set_true _ _ _ (by simpa using hj), getD_set_true _ _ _ hj]
      tauto
    · have hlen :
          ((dv.set (Idx2d.unchecked idx r1) true).set
            (Idx2d.unchecked idx r2) true).length = dv.length := by
        simp
      have hiff :
          (((dv.set (Idx2d.unchecked idx r1) true).set
              (Idx2d.unchecked idx r2) true).count true = dv.length) ↔
            (∀ b ∈ (dv.set (Idx2d.unchecked idx r1) true).set
                (Idx2d.unchecked idx r2) true, b = true) := by
        rw [← hlen, List.count_eq_length]
        constructor
        · intro h b hb
          exact (h b hb).symm
        · intro h b hb
          exact (h b hb).symm
      by_cases hall :
          ((dv.set (Idx2d.unchecked idx r1) true).set
            (Idx2d.unchecked idx r2) true).count true = dv.length
      · rw [if_pos hall]
        simp only [true_iff]
        exact hiff.mp hall
      · rw [if_neg hall]
        constructor
        · intro hGV
          exact absurd hGV (by decide)
        · intro hQ
          exact absurd (hiff.mpr hQ) hall
  · intro sh g hstate hg1 hg2
    obtain ⟨st, ui, gu, idx, bd, dv, rv1, rv2, er⟩ := g
    subst hstate
    simp only at hg1 hg2
    have hw : wrap32 (gu + 1) = gu + 1 :=
      wrap32_eq_self (by omega) (by omega)
    simp only [Game.update, Game.inc_guesses, Game.clear_revealed, hw]

/-- A 2×1 board whose two cells carry the same card. -/
def sampleBoard21 : Board :=
  ⟨⟨2, 1⟩, [⟨'☀'⟩, ⟨'☀'⟩]⟩

/-- A guess-phase game on `sampleBoard21` with one slot already filled and
the second pick pending in the input line. -/
def sampleGuess2 : Game :=
  ⟨.Guess, "2,1", 0, ⟨2, 1⟩, sampleBoard21, [false, false], some ⟨0, 0⟩,
    none, none⟩

/-- The same game one step later, awaiting the correct-guess auto-advance. -/
def sampleCorrect : Game :=
  ⟨.CorrectGuessConfirm, "", 0, ⟨2, 1⟩, sampleBoard21, [false, false],
    some ⟨0, 0⟩, some ⟨1, 0⟩, none⟩

/-- A game awaiting the incorrect-guess auto-advance. -/
def sampleIncorrect : Game :=
  ⟨.IncorrectGuessConfirm, "", 3, ⟨2, 1⟩, sampleBoard21, [false, false],
    some ⟨0, 0⟩, some ⟨1, 0⟩, none⟩

/-- Witness for `Game.update_guess_resolution`: all three parts on a
concrete 2×1 board. -/
theorem Game.update_guess_resolution_witness :
    (Game.update [] sampleGuess2 = some { sampleGuess2 with
        revealed2 := some ⟨1, 0⟩
        error := none
        state := (if (⟨'☀'⟩ : Card) = ⟨'☀'⟩ then GameState.CorrectGuessConfirm
          else GameState.IncorrectGuessConfirm) }) ∧
      (Game.update [] sampleCorrect = some { sampleCorrect with
        discovered := ((sampleCorrect.discovered.set
          (sampleCorrect.idx.unchecked ⟨0, 0⟩) true).set
          (sampleCorrect.idx.unchecked ⟨1, 0⟩) true)
        guesses := sampleCorrect.guesses + 1
        revealed1 := none
        revealed2 := none
        error := none
        state := (if ((sampleCorrect.discovered.set
              (sampleCorrect.idx.unchecked ⟨0, 0⟩) true).set
              (sampleCorrect.idx.unchecked ⟨1, 0⟩) true).count true =
              sampleCorrect.discovered.length then
            GameState.Victory
          else GameState.Guess) }) ∧
      (Game.update [] sampleIncorrect = some { sampleIncorrect with
        guesses := sampleIncorrect.guesses + 1
        revealed1 := none
        revealed2 := none
        error := none
        state := GameState.Guess }) :=
  ⟨Game.update_guess_resolution.1 [] sampleGuess2 ⟨1, 0⟩ ⟨0, 0⟩ ⟨'☀'⟩ ⟨'☀'⟩
      rfl rfl rfl (by decide) (by decide) (by decide) (by decide) (by decide),
    (Game.update_guess_resolution.2.1 [] sampleCorrect ⟨0, 0⟩ ⟨1, 0⟩ rfl rfl rfl
      (by decide) (by decide) (by decide) (by decide)).1,
    Game.update_guess_resolution.2.2 [] sampleIncorrect rfl (by decide)
      (by decide)⟩

theorem count_set_general (l : List Card) (j : Nat) (hj : j < l.length)
    (v c : Card) :
    (l.set j v).count c + (if l.getD j nullCard = c then 1 else 0) =
      l.count c + (if v = c then 1 else 0) := by
  have hget : l.getD j nullCard = l.get ⟨j, hj⟩ := by
    rw [List.getD_eq_getElem?_getD, List.getElem?_eq_getElem hj]
    rfl
  have hdec : l.set j v = l.take j ++ v :: l.drop (j + 1) :=
    List.set_eq_take_cons_drop v hj
  have hl : l = l.take j ++ l.get ⟨j, hj⟩ :: l.drop (j + 1) := by
    conv_lhs => rw [← List.take_append_drop j l]
    congr 1
    exact List.drop_eq_getElem_cons hj
  rw [hdec, hget]
  conv_rhs => rw [hl]
  simp only [List.count_append, List.count_cons]
  by_cases h1 : l.get ⟨j, hj⟩ = c <;> by_cases h2 : v = c <;>
    simp [h1, h2] <;> omega

theorem card_chars_length : CARD_CHARS.length = 55 := by decide

theorem card_chars_ne_null (i : Nat) :
    CARD_CHARS.getD i ' ' ≠ Char.ofNat 0 := by
  by_cases hi : i < CARD_CHARS.length
  · rw [List.getD_eq_getElem?_getD, List.getElem?_eq_getElem hi]
    have hall : CARD_CHARS.all (fun c => decide (c ≠ Char.ofNat 0)) = true := by
      decide
    have hmem := List.all_eq_true.mp hall _ (CARD_CHARS.getElem_mem hi)
    simpa using hmem
  · rw [List.getD_eq_getElem?_getD, List.getElem?_eq_none (by omega)]
    decide

theorem card_chars_inj {i0 i1 : Nat} (h0 : i0 < 55) (h1 : i1 < 55)
    (hne : i0 ≠ i1) : CARD_CHARS.getD i0 ' ' ≠ CARD_CHARS.getD i1 ' ' := by
  have hnd : CARD_CHARS.Nodup := by decide
  have h0' : i0 < CARD_CHARS.length := by rw [card_chars_length]; exact h0
  have h1' : i1 < CARD_CHARS.length := by rw [card_chars_length]; exact h1
  rw [List.getD_eq_getElem?_getD, List.getElem?_eq_getElem h0',
    List.getD_eq_getElem?_getD, List.getElem?_eq_getElem h1']
  simpa using fun hEq => hne ((List.Nodup.getElem_inj_iff hnd).mp hEq)

theorem getD_replicate_null (n j : Nat) :
    (List.replicate n nullCard).getD j nullCard = nullCard := by
  rw [List.getD_eq_getElem?_getD]
  by_cases hj : j < n
  · rw [List.getElem?_eq_getElem (by simpa using hj)]
    simp [List.getElem_replicate]
  · rw [List.getElem?_eq_none (by simpa using hj)]
    rfl

theorem unchecked_unindex {w h : Int} (hw : 0 < w) (hh : 0 < h)
    (harea : w * h < 2 ^ 31) (i : Nat) (hi : (i : Int) < w * h) :
    Idx2d.unchecked ⟨w, h⟩ (Idx2d.unindex ⟨w, h⟩ (i : Int)) = i := by
  have h0 : (0 : Int) ≤ (i : Int) := Int.natCast_nonneg i
  have htm : Int.tmod (i : Int) w = (i : Int) % w :=
    Int.tmod_eq_emod h0 (le_of_lt hw)
  have htd : Int.tdiv (i : Int) w = (i : Int) / w :=
    Int.tdiv_eq_ediv h0 (le_of_lt hw)
  have hmlt : (i : Int) % w < w := Int.emod_lt_of_pos _ hw
  have hm0 : 0 ≤ (i : Int) % w := Int.emod_nonneg _ (ne_of_gt hw)
  have hd0 : 0 ≤ (i : Int) / w := Int.ediv_nonneg h0 (le_of_lt hw)
  have hdlt : (i : Int) / w < h := by
    rw [Int.ediv_lt_iff_lt_mul hw]
    linarith
  simp only [Idx2d.unindex, htm, htd]
  rw [unchecked_eq_of_lt hm0 hmlt hd0 hdlt harea]
  rw [show (i : Int) / w * w + (i : Int) % w = w * ((i : Int) / w) + (i : Int) % w
      by ring, Int.ediv_add_emod]
  exact Int.toNat_natCast i

theorem iter_all_map_unchecked {w h : Int} (hw : 0 < w) (hh : 0 < h)
    (hmax : w * h ≤ 110) :
    (Idx2d.iter_all ⟨w, h⟩).map (Idx2d.unchecked ⟨w, h⟩) =
      List.range (w * h).toNat := by
  have harea : 0 < w * h := mul_pos hw hh
  have hwrap : wrap32 (w * h) = w * h := wrap32_eq_self (by omega) (by omega)
  simp only [Idx2d.iter_all, hwrap, List.map_map]
  have : ∀ i ∈ List.range (w * h).toNat,
      (Idx2d.unchecked ⟨w, h⟩ ∘ fun i : Nat => Idx2d.unindex ⟨w, h⟩ (i : Int)) i =
        id i := by
    intro i hi
    have hi' : (i : Int) < w * h := by
      have := List.mem_range.mp hi
      omega
    simpa using unchecked_unindex hw hh (by omega) i hi'
  rw [List.map_congr_left this, List.map_id]

theorem bind_zip_pair_perm {α β : Type} (f : α → β) :
    ∀ (A B : List α), A.length = B.length →
    ((A.zip B).flatMap (fun p => [f p.1, f p.2])).Perm ((A ++ B).map f)
  | [], [], _ => by simp
  | [], b :: B, h => by simp at h
  | a :: A, [], h => by simp at h
  | a :: A, b :: B, h => by
    have ih := bind_zip_pair_perm f A B (by simpa using h)
    simp only [List.zip_cons_cons, List.flatMap_cons, List.cons_append,
      List.map_cons, List.map_append]
    refine List.Perm.cons (f a) ?_
    refine List.Perm.trans (List.Perm.cons (f b) (by simpa using ih)) ?_
    exact (List.perm_middle).symm

theorem getD_set_ne_null (l : List Card) (a b : Nat) (v : Card) (hab : a ≠ b) :
    (l.set a v).getD b nullCard = l.getD b nullCard := by
  rw [List.getD_eq_getElem?_getD, List.getElem?_set_ne hab,
    ← List.getD_eq_getElem?_getD]

theorem mk_getD_ne_null (i : Nat) : (⟨CARD_CHARS.getD i ' '⟩ : Card) ≠ nullCard := by
  simp only [nullCard, ne_eq, Card.mk.injEq]
  exact card_chars_ne_null i

theorem writePairs_spec (idx : Idx2d) (ps : List (Vec2 × Vec2)) :
    ∀ (i : Nat) (cards : List Card),
    (∀ p ∈ ps, idx.unchecked p.1 < cards.length ∧
      idx.unchecked p.2 < cards.length) →
    (ps.flatMap fun p => [idx.unchecked p.1, idx.unchecked p.2]).Nodup →
    (∀ p ∈ ps, cards.getD (idx.unchecked p.1) nullCard = nullCard ∧
      cards.getD (idx.unchecked p.2) nullCard = nullCard) →
    i + ps.length ≤ 55 →
    ∃ cards', writePairs idx ps i cards = some cards' ∧
      cards'.length = cards.length ∧
      cards'.count nullCard + 2 * ps.length = cards.count nullCard ∧
      (∀ i0, i ≤ i0 → i0 < i + ps.length →
        cards'.count ⟨CARD_CHARS.getD i0 ' '⟩ =
          cards.count ⟨CARD_CHARS.getD i0 ' '⟩ + 2) ∧
      (∀ c : Card, c ≠ nullCard →
        (∀ t, t < ps.length → c ≠ ⟨CARD_CHARS.getD (i + t) ' '⟩) →
        cards'.count c = cards.count c) := by
  induction ps with
  | nil =>
    intro i cards _ _ _ _
    refine ⟨cards, rfl, rfl, by simp, ?_, fun c _ _ => rfl⟩
    intro i0 h1 h2
    simp only [List.length_nil, Nat.add_zero] at h2
    omega
  | cons p rest ih =>
    obtain ⟨c1, c2⟩ := p
    intro i cards hbound hnd hnull hle
    obtain ⟨hb1, hb2⟩ := hbound (c1, c2) (by simp)
    obtain ⟨hn1, hn2⟩ := hnull (c1, c2) (by simp)
    simp only [List.flatMap_cons, List.cons_append, List.nil_append] at hnd
    obtain ⟨hj1nin, hnd2⟩ := List.nodup_cons.mp hnd
    obtain ⟨hj2nin, hndrest⟩ := List.nodup_cons.mp hnd2
    have hj12 : idx.unchecked c1 ≠ idx.unchecked c2 := by
      intro hEq
      exact hj1nin (by rw [hEq]; exact List.mem_cons_self _ _)
    have hj1rest : idx.unchecked c1 ∉
        rest.flatMap fun p => [idx.unchecked p.1, idx.unchecked p.2] := by
      intro hmem
      exact hj1nin (List.mem_cons_of_mem _ hmem)
    have hi55 : i < 55 := by
      simp only [List.length_cons] at hle
      omega
    have hgetch : CARD_CHARS.get? i = some (CARD_CHARS.getD i ' ') := by
      have hi' : i < CARD_CHARS.length := by rw [card_chars_length]; exact hi55
      rw [List.get?_eq_getElem?, List.getElem?_eq_getElem hi',
        List.getD_eq_getElem?_getD, List.getElem?_eq_getElem hi']
      rfl
    set ch : Card := ⟨CARD_CHARS.getD i ' '⟩ with hchdef
    have hchnn : ch ≠ nullCard := mk_getD_ne_null i
    -- evaluate one step of the loop
    have hb2' : idx.unchecked c2 < (cards.set (idx.unchecked c1) ch).length := by
      simpa using hb2
    have hstep : writePairs idx ((c1, c2) :: rest) i cards =
        writePairs idx rest (i + 1)
          ((cards.set (idx.unchecked c1) ch).set (idx.unchecked c2) ch) := by
      rw [writePairs, hgetch]
      simp only [← hchdef]
      rw [if_pos hb1, if_pos hb2']
    set cards2 : List Card :=
      (cards.set (idx.unchecked c1) ch).set (idx.unchecked c2) ch with hc2def
    have hlen2 : cards2.length = cards.length := by simp [hc2def]
    -- invariants for the tail
    have hboundr : ∀ p ∈ rest, idx.unchecked p.1 < cards2.length ∧
        idx.unchecked p.2 < cards2.length := by
      intro p hp
      rw [hlen2]
      exact hbound p (List.mem_cons_of_mem _ hp)
    have hposr : ∀ p ∈ rest,
        idx.unchecked p.1 ∈
          (rest.flatMap fun p => [idx.unchecked p.1, idx.unchecked p.2]) ∧
        idx.unchecked p.2 ∈
          (rest.flatMap fun p => [idx.unchecked p.1, idx.unchecked p.2]) := by
      intro p hp
      constructor
      · exact List.mem_flatMap.mpr ⟨p, hp, by simp⟩
      · exact List.mem_flatMap.mpr ⟨p, hp, by simp⟩
    have hnullr : ∀ p ∈ rest, cards2.getD (idx.unchecked p.1) nullCard = nullCard ∧
        cards2.getD (idx.unchecked p.2) nullCard = nullCard := by
      intro p hp
      obtain ⟨hm1, hm2⟩ := hposr p hp
      obtain ⟨ho1, ho2⟩ := hnull p (List.mem_cons_of_mem _ hp)
      constructor
      · rw [hc2def,
          getD_set_ne_null _ _ _ _ (fun hEq => hj2nin (by rw [hEq]; exact hm1)),
          getD_set_ne_null _ _ _ _ (fun hEq => hj1nin
            (List.mem_cons_of_mem _ (by rw [hEq]; exact hm1)))]
        exact ho1
      · rw [hc2def,
          getD_set_ne_null _ _ _ _ (fun hEq => hj2nin (by rw [hEq]; exact hm2)),
          getD_set_ne_null _ _ _ _ (fun hEq => hj1nin
            (List.mem_cons_of_mem _ (by rw [hEq]; exact hm2)))]
        exact ho2
    have hler : (i + 1) + rest.length ≤ 55 := by
      simp only [List.length_cons] at hle
      omega
    obtain ⟨cards', hw', hlen', hnullc, hd, hf⟩ :=
      ih (i + 1) cards2 hboundr hndrest hnullr hler
    -- count bookkeeping for the two fresh writes
    have hnset1 : cards.getD (idx.unchecked c2) nullCard = nullCard := hn2
    have hold2 : (cards.set (idx.unchecked c1) ch).getD (idx.unchecked c2)
        nullCard = nullCard := by
      rw [getD_set_ne_null _ _ _ _ hj12]
      exact hn2
    have e1 := fun c => count_set_general cards (idx.unchecked c1) hb1 ch c
    have e2 := fun c => count_set_general (cards.set (idx.unchecked c1) ch)
      (idx.unchecked c2) hb2' ch c
    refine ⟨cards', hstep.trans hw', hlen'.trans hlen2, ?_, ?_, ?_⟩
    · -- null-card count
      have g1 := e1 nullCard
      have g2 := e2 nullCard
      rw [hn1, if_pos rfl, if_neg hchnn] at g1
      rw [hold2, if_pos rfl, if_neg hchnn] at g2
      rw [← hc2def] at g2
      simp only [List.length_cons]
      omega
    · -- freshly written symbols
      intro i0 hge hlt
      simp only [List.length_cons] at hlt
      by_cases hii : i0 = i
      · subst hii
        have g1 := e1 ch
        have g2 := e2 ch
        rw [hn1, if_neg (Ne.symm hchnn), if_pos rfl] at g1
        rw [hold2, if_neg (Ne.symm hchnn), if_pos rfl] at g2
        rw [← hc2def] at g2
        have hpres := hf ch hchnn (fun t ht => by
          rw [hchdef]
          simp only [ne_eq, Card.mk.injEq]
          exact card_chars_inj hi55 (by omega) (by omega))
        rw [← hchdef]
        omega
      · have hi055 : i0 < 55 := by omega
        have hchne : (⟨CARD_CHARS.getD i0 ' '⟩ : Card) ≠ ch := by
          rw [hchdef]
          simp only [ne_eq, Card.mk.injEq]
          exact card_chars_inj hi055 hi55 hii
        have g1 := e1 ⟨CARD_CHARS.getD i0 ' '⟩
        have g2 := e2 ⟨CARD_CHARS.getD i0 ' '⟩
        rw [hn1, if_neg (fun hEq => (mk_getD_ne_null i0) hEq.symm),
          if_neg (Ne.symm hchne)] at g1
        rw [hold2, if_neg (fun hEq => (mk_getD_ne_null i0) hEq.symm),
          if_neg (Ne.symm hchne)] at g2
        rw [← hc2def] at g2
        have hrec := hd i0 (by omega) (by omega)
        omega
    · -- untouched symbols
      intro c hcnull hcnot
      have hcch : c ≠ ch := by
        have h0 := hcnot 0 (by simp)
        rw [Nat.add_zero] at h0
        rw [← hchdef] at h0
        exact h0
      have g1 := e1 c
      have g2 := e2 c
      rw [hn1, if_neg (Ne.symm hcnull), if_neg (Ne.symm hcch)] at g1
      rw [hold2, if_neg (Ne.symm hcnull), if_neg (Ne.symm hcch)] at g2
      rw [← hc2def] at g2
      have hrec := hf c hcnull (fun t ht => by
        rw [show i + 1 + t = i + (t + 1) by omega]
        exact hcnot (t + 1) (by simp only [List.length_cons]; omega))
      omega

/-- C1 (confirmed): for any valid dimensions (positive, even area of at most
110 cells) and any permutation of the coordinate list that the shuffle may
produce, `Board::new` succeeds and fills the `width*height` cells with
exactly the first `area/2` symbols of `CARD_CHARS`, each symbol occupying
exactly two (distinct) cells. -/
theorem Board.new_pairs (w h : Int) (shuffled : List Vec2)
    (hw : 0 < w) (hh : 0 < h) (heven : (w * h) % 2 = 0) (hmax : w * h ≤ 110)
    (hperm : shuffled.Perm (Idx2d.iter_all ⟨w, h⟩)) :
    ∃ b : Board, Board.new w h shuffled = some b ∧
      b.cards.length = (w * h).toNat ∧
      (∀ i : Nat, i < (w * h).toNat / 2 →
        b.cards.count ⟨CARD_CHARS.getD i ' '⟩ = 2) ∧
      (∀ card ∈ b.cards, ∃ i, i < (w * h).toNat / 2 ∧
        card = ⟨CARD_CHARS.getD i ' '⟩) := by
  have harea : 0 < w * h := mul_pos hw hh
  set n : Nat := (w * h).toNat with hndef
  have hcast : ((n : Int)) = w * h := Int.toNat_of_nonneg (le_of_lt harea)
  have hn0 : 0 < n := by omega
  have hneven : n % 2 = 0 := by omega
  have hn110 : n ≤ 110 := by omega
  set k : Nat := n / 2 with hkdef
  have hn2k : n = 2 * k := by omega
  have hk1 : 1 ≤ k := by omega
  have hk55 : k ≤ 55 := by omega
  have hmapunch : (Idx2d.iter_all ⟨w, h⟩).map (Idx2d.unchecked ⟨w, h⟩) =
      List.range n := iter_all_map_unchecked hw hh hmax
  have hiterlen : (Idx2d.iter_all ⟨w, h⟩).length = n := by
    have := congrArg List.length hmapunch
    simpa using this
  have hslen : shuffled.length = n := hperm.length_eq.trans hiterlen
  have hpermIdx : (shuffled.map (Idx2d.unchecked ⟨w, h⟩)).Perm (List.range n) := by
    rw [← hmapunch]
    exact hperm.map _
  have hAB : shuffled.take k ++ shuffled.drop k = shuffled :=
    List.take_append_drop k shuffled
  have hlenA : (shuffled.take k).length = k := by
    rw [List.length_take]
    omega
  have hlenB : (shuffled.drop k).length = k := by
    rw [List.length_drop]
    omega
  have hziplen : ((shuffled.take k).zip (shuffled.drop k)).length = k := by
    rw [List.length_zip, hlenA, hlenB, Nat.min_self]
  have hzip_perm :
      (((shuffled.take k).zip (shuffled.drop k)).flatMap
          fun p => [Idx2d.unchecked ⟨w, h⟩ p.1, Idx2d.unchecked ⟨w, h⟩ p.2]).Perm
        (List.range n) := by
    have hbz := bind_zip_pair_perm (Idx2d.unchecked ⟨w, h⟩)
      (shuffled.take k) (shuffled.drop k) (by rw [hlenA, hlenB])
    rw [hAB] at hbz
    exact hbz.trans hpermIdx
  have hposnodup :
      (((shuffled.take k).zip (shuffled.drop k)).flatMap
          fun p => [Idx2d.unchecked ⟨w, h⟩ p.1, Idx2d.unchecked ⟨w, h⟩ p.2]).Nodup :=
    hzip_perm.symm.nodup (List.nodup_range n)
  have hmem_pos : ∀ p ∈ (shuffled.take k).zip (shuffled.drop k),
      Idx2d.unchecked ⟨w, h⟩ p.1 < n ∧ Idx2d.unchecked ⟨w, h⟩ p.2 < n := by
    intro p hp
    constructor
    · exact List.mem_range.mp (hzip_perm.mem_iff.mp
        (List.mem_flatMap.mpr ⟨p, hp, by simp⟩))
    · exact List.mem_range.mp (hzip_perm.mem_iff.mp
        (List.mem_flatMap.mpr ⟨p, hp, by simp⟩))
  obtain ⟨cards', hwp, hlen', hnullc, hd, hf⟩ :=
    writePairs_spec ⟨w, h⟩ ((shuffled.take k).zip (shuffled.drop k)) 0
      (List.replicate n nullCard)
      (by
        intro p hp
        rw [List.length_replicate]
        exact hmem_pos p hp)
      hposnodup
      (fun p hp => ⟨getD_replicate_null n _, getD_replicate_null n _⟩)
      (by rw [hziplen]; omega)
  have hwrap : wrap32 (w * h) = w * h := wrap32_eq_self (by omega) (by omega)
  have hsize : i32ToUsize (wrap32 (w * h)) = n := by
    rw [hwrap, i32ToUsize_eq_toNat (by omega) (by omega), hndef]
  have hnew : Board.new w h shuffled = some ⟨⟨w, h⟩, cards'⟩ := by
    simp only [Board.new, hslen, hsize]
    rw [← hkdef]
    rw [if_neg (by omega : ¬k = 0), if_neg (by omega : ¬n ≠ 2 * k)]
    rw [hwp]
    rfl
  have hlenrep : cards'.length = n := by
    rw [hlen', List.length_replicate]
  refine ⟨⟨⟨w, h⟩, cards'⟩, hnew, hlenrep, ?_, ?_⟩
  · intro i hik
    have hcount := hd i (Nat.zero_le i) (by rw [hziplen]; omega)
    rw [hcount, List.count_replicate]
    have : (nullCard == (⟨CARD_CHARS.getD i ' '⟩ : Card)) = false := by
      simp only [beq_eq_false_iff_ne, ne_eq]
      exact fun hEq => mk_getD_ne_null i hEq.symm
    rw [this]
    simp
  · intro card hmem
    by_contra hnot
    push_neg at hnot
    by_cases hcn : card = nullCard
    · subst hcn
      have hpos : 0 < cards'.count nullCard := List.count_pos_iff.mpr hmem
      rw [hziplen, List.count_replicate_self] at hnullc
      omega
    · have hpres := hf card hcn (fun t ht => by
        rw [Nat.zero_add]
        rw [hziplen] at ht
        exact hnot t ht)
      have hpos : 0 < cards'.count card := List.count_pos_iff.mpr hmem
      rw [hpres, List.count_replicate] at hpos
      have hbeq : (nullCard == card) = false := by
        simp only [beq_eq_false_iff_ne, ne_eq]
        exact fun hEq => hcn hEq.symm
      rw [hbeq] at hpos
      simp at hpos

/-- Witness for `Board.new_pairs`: the 2×1 board with the swapped shuffle
order. -/
theorem Board.new_pairs_witness :
    ∃ b : Board, Board.new 2 1 [⟨1, 0⟩, ⟨0, 0⟩] = some b ∧
      b.cards.length = ((2 : Int) * 1).toNat ∧
      (∀ i : Nat, i < ((2 : Int) * 1).toNat / 2 →
        b.cards.count ⟨CARD_CHARS.getD i ' '⟩ = 2) ∧
      (∀ card ∈ b.cards, ∃ i, i < ((2 : Int) * 1).toNat / 2 ∧
        card = ⟨CARD_CHARS.getD i ' '⟩) :=
  Board.new_pairs 2 1 [⟨1, 0⟩, ⟨0, 0⟩] (by decide) (by decide) (by decide)
    (by decide) (by decide)
